import Mathlib

/-!
# Tiered Context Retrieval Engine — verification development

Shallow embedding of `src/lib/services/ai/entryRetrieval.ts` (Aventura).
The external reasoning backend (`OpenRouterProvider.generateResponse`) is
abstracted by its observable outcome: either a thrown/rejected error or a
response content string (`Except Unit String`).  Prompt construction, which
only influences that external call, is not modelled.  All other logic —
tier-1 rule evaluation, candidate filtering, response parsing (JSON array
extraction plus the raw-text `ID:` scan), id-to-entry mapping, truncation,
priority sorting and context-block formatting — is translated from the
source.
-/

namespace Aventura

/-- Modelled from the spec: the closed entry-type set of the `Entry` record
from `$lib/types` (the type declaration file is not part of `src/`; §3 of the
spec fixes the shape, and every field below is also visible in the usage
by the source). -/
inductive EntryType
  | character
  | location
  | item
  | faction
  | concept
  | event
deriving DecidableEq, Repr

/-- Modelled from the spec: the author-set injection policy
(`always | auto | never`). -/
inductive InjectionMode
  | always
  | auto
  | never
deriving DecidableEq, Repr

/-- Modelled from the spec: faction standing (`neutral | allied | hostile`). -/
inductive FactionStatus
  | neutral
  | allied
  | hostile
deriving DecidableEq, Repr

/-- Rendering of a faction status, as interpolated by the source into the
`faction ${entry.state.status}` match reason. -/
def FactionStatus.toStr : FactionStatus → String
  | .neutral => "neutral"
  | .allied => "allied"
  | .hostile => "hostile"

/-- Modelled from the spec: the type-tagged mutable state payload of an
entry (`state.type` discriminates the available fields). -/
inductive EntryState
  | character (isPresent : Bool) (currentDisposition : Option String)
  | location (isCurrentLocation : Bool)
  | item (inInventory : Bool)
  | faction (status : FactionStatus)
deriving DecidableEq, Repr

/-- Modelled from the spec: the `injection` sub-record of an entry
(`entry.injection.mode`, `entry.injection.priority` in the source). -/
structure Injection where
  mode : InjectionMode
  priority : Int
deriving DecidableEq, Repr

/-- Modelled from the spec: a knowledge-base entry (`Entry` in `$lib/types`),
restricted to the fields the retrieval engine reads. -/
structure Entry where
  id : String
  type : EntryType
  name : String
  description : String
  injection : Injection
  state : Option EntryState
deriving DecidableEq, Repr

/-- `RetrievedEntry` from the source: a decision record
`(entry, tier, priority, matchReason)`. -/
structure RetrievedEntry where
  entry : Entry
  tier : Nat
  priority : Int
  matchReason : Option String
deriving DecidableEq, Repr

/-- `EntryRetrievalConfig` from the source, all six fields.  As in the
source, `llmThreshold` and `alwaysUseLLM` are declared (and documented
there as a selection-call gate) but never read by the retrieval path. -/
structure EntryRetrievalConfig where
  llmThreshold : Nat
  maxTier3Entries : Nat
  enableLLMSelection : Bool
  recentEntriesCount : Nat
  tier3Model : String
  alwaysUseLLM : Bool
deriving DecidableEq, Repr

/-- `DEFAULT_ENTRY_RETRIEVAL_CONFIG` from the source. -/
def DEFAULT_ENTRY_RETRIEVAL_CONFIG : EntryRetrievalConfig where
  llmThreshold := 0
  maxTier3Entries := 0
  enableLLMSelection := true
  recentEntriesCount := 5
  tier3Model := "x-ai/grok-4.1-fast"
  alwaysUseLLM := true

/-- `EntryRetrievalResult` from the source. -/
structure EntryRetrievalResult where
  tier1 : List RetrievedEntry
  tier2 : List RetrievedEntry
  tier3 : List RetrievedEntry
  all : List RetrievedEntry
  contextBlock : String
deriving DecidableEq, Repr

/-! ## Tier 1: always-inject rule evaluation (source lines 136–197)

The loop body of `getTier1Entries` mutates three locals
(`shouldInclude`, `priority`, `reason`); `tier1Eval` threads that state
explicitly.  Note that the source applies the state-based conditions to
every entry, without consulting whether `injection.mode` is `never`. -/

/-- The per-entry body of `getTier1Entries`: the final values of
`(shouldInclude, priority, reason)`. -/
def tier1Eval (entry : Entry) : Bool × Int × String :=
  let s0 : Bool × Int × String := (false, 0, "")
  let s1 := if entry.injection.mode = InjectionMode.always then
      (true, (100 : Int), "always inject")
    else s0
  match entry.state with
  | none => s1
  | some (.character isPresent _) =>
      if isPresent then (true, max s1.2.1 95, "character present") else s1
  | some (.location isCurrentLocation) =>
      if isCurrentLocation then (true, max s1.2.1 100, "current location") else s1
  | some (.item inInventory) =>
      if inInventory then (true, max s1.2.1 80, "in inventory") else s1
  | some (.faction status) =>
      if status = FactionStatus.allied ∨ status = FactionStatus.hostile then
        (true, max s1.2.1 70, "faction " ++ status.toStr)
      else s1

/-- `getTier1Entries` (source lines 136–197). -/
def getTier1Entries (entries : List Entry) : List RetrievedEntry :=
  entries.filterMap fun entry =>
    let s := tier1Eval entry
    if s.1 then some ⟨entry, 1, s.2.1, some s.2.2⟩ else none

/-! ## Response parsing (source lines 259–283)

The source first applies the regex `\[[\s\S]*?\]` to the response content —
a non-greedy match whose result, when it exists, runs from the first `[` of
the text to the first `]` after it — and feeds the match to `JSON.parse`,
keeping the result only when it is an array (a JSON text that begins with
`[` can only parse to an array).  If that stage produces no ids, the source
falls back to scanning the raw text with `/ID:([a-zA-Z0-9_-]+)/g`.

`JSON.parse` is modelled for flat arrays whose elements are escape-free
string literals, integer numerals, `true`, `false` or `null` (converted via
`String(id)` exactly as the `parsed.map(id => String(id).trim())` of the
source does).  Escape sequences, fractional/exponent numbers and nested
objects/arrays are outside the modelled grammar — entry ids are plain
`[a-zA-Z0-9_-]` strings, so none of these occur in id arrays. -/

/-- JSON insignificant whitespace. -/
def jsonWsChar (c : Char) : Bool :=
  c = ' ' || c = '\t' || c = '\n' || c = '\r'

/-- Drop leading JSON whitespace. -/
def skipWs (cs : List Char) : List Char :=
  cs.dropWhile jsonWsChar

/-- Parse a JSON string literal (no escape sequences) at the head of the
input; returns the decoded string and the remaining characters. -/
def parseStr : List Char → Option (String × List Char)
  | c :: rest =>
    if c = '"' then
      let content := rest.takeWhile fun ch => !(ch = '"' || ch = '\\')
      match rest.drop content.length with
      | c2 :: rem => if c2 = '"' then some (String.mk content, rem) else none
      | [] => none
    else none
  | [] => none

/-- Parse a JSON integer numeral at the head of the input, yielding its
`String(...)` rendering (canonical: no leading zeros, `-0` renders `0`). -/
def parseIntToken (cs : List Char) : Option (String × List Char) :=
  let neg := match cs with
    | '-' :: _ => true
    | _ => false
  let cs2 := if neg then cs.drop 1 else cs
  let digits := cs2.takeWhile Char.isDigit
  if digits.isEmpty then none
  else if digits.length > 1 ∧ digits.head? = some '0' then none
  else
    let rest := cs2.drop digits.length
    let blocked := match rest with
      | c :: _ => c = '.' || c = 'e' || c = 'E'
      | [] => false
    if blocked then none
    else
      let rendered := if digits = ['0'] then "0"
        else (if neg then "-" else "") ++ String.mk digits
      some (rendered, rest)

/-- Parse a single JSON array element (string, integer, `true`, `false`
or `null`), converted to a string as `String(id)` does. -/
def parseElem (cs : List Char) : Option (String × List Char) :=
  match parseStr cs with
  | some r => some r
  | none =>
    match cs with
    | 't' :: 'r' :: 'u' :: 'e' :: rest => some ("true", rest)
    | 'f' :: 'a' :: 'l' :: 's' :: 'e' :: rest => some ("false", rest)
    | 'n' :: 'u' :: 'l' :: 'l' :: rest => some ("null", rest)
    | _ => parseIntToken cs

/-- Parse a comma-separated, `]`-terminated sequence of array elements.
Each step consumes at least one character, so fuel equal to the input
length is sufficient; the fuel is never the reason a well-formed input is
rejected. -/
def parseElemsAux : Nat → List Char → Option (List String)
  | 0, _ => none
  | fuel + 1, cs =>
    match parseElem cs with
    | none => none
    | some (s, rem) =>
      match skipWs rem with
      | ',' :: rem2 => (parseElemsAux fuel (skipWs rem2)).map fun ids => s :: ids
      | ']' :: rem2 => if (skipWs rem2).isEmpty then some [s] else none
      | _ => none

/-- `JSON.parse` on a bracketed segment, restricted to the grammar above:
succeeds exactly when the whole segment is a well-formed flat array, and
yields the element list in `String(...)` form. -/
def parseJsonStringArray (cs : List Char) : Option (List String) :=
  match cs with
  | '[' :: rest =>
    match skipWs rest with
    | ']' :: rem => if (skipWs rem).isEmpty then some [] else none
    | rest2 => parseElemsAux rest2.length rest2
  | _ => none

/-- The match of `/\[[\s\S]*?\]/` on the content: the segment from the
first `[` to the first `]` after it, when both exist. -/
def takeToClose : List Char → Option (List Char)
  | [] => none
  | c :: rest =>
    if c = ']' then some [c] else (takeToClose rest).map fun seg => c :: seg

/-- Locate the first bracketed segment of the content (see `takeToClose`). -/
def firstArraySeg : List Char → Option (List Char)
  | [] => none
  | c :: rest =>
    if c = '[' then (takeToClose rest).map fun seg => c :: seg
    else firstArraySeg rest

/-- A character the id regex class `[a-zA-Z0-9_-]` accepts. -/
def isIdChar (c : Char) : Bool :=
  c.isAlpha || c.isDigit || c = '_' || c = '-'

/-- The raw-text fallback scan `response.content.matchAll(/ID:([a-zA-Z0-9_-]+)/g)`:
collect every maximal nonempty id-character run directly following a
literal `ID:`, left to right, resuming after each match.  Each step
consumes at least one character, so fuel equal to the input length is
sufficient. -/
def scanIdsAux : Nat → List Char → List String
  | 0, _ => []
  | fuel + 1, cs =>
    match cs with
    | [] => []
    | 'I' :: 'D' :: ':' :: after =>
      let run := after.takeWhile isIdChar
      if run.isEmpty then scanIdsAux fuel ('D' :: ':' :: after)
      else String.mk run :: scanIdsAux fuel (after.drop run.length)
    | _ :: rest => scanIdsAux fuel rest

/-- All ids found by the fallback scan of the raw response text. -/
def scanIds (cs : List Char) : List String :=
  scanIdsAux cs.length cs

/-- `String.prototype.trim`: strip leading and trailing whitespace. -/
def trimStr (s : String) : String :=
  String.mk (((s.data.dropWhile Char.isWhitespace).reverse.dropWhile
    Char.isWhitespace).reverse)

/-- The JSON-array stage of response parsing (source lines 262–273): ids
from the first bracketed segment when it parses as an array, each put
through `String(id).trim()`; the empty list when there is no segment or
parsing throws. -/
def jsonStageIds (content : String) : List String :=
  match firstArraySeg content.data with
  | some seg =>
    match parseJsonStringArray seg with
    | some ids => ids.map trimStr
    | none => []
  | none => []

/-- The complete `selectedIds` computation (source lines 260–281): the
JSON stage, falling back to the raw-text scan whenever it produced no
ids. -/
def selectIds (content : String) : List String :=
  let ids := jsonStageIds content
  if ids.isEmpty then scanIds content.data else ids

/-! ## Tier 2: reasoning-based selection (source lines 203–310) -/

/-- Mapping of selected ids back to entries (source lines 286–298): one
pass over `availableEntries`, keeping each entry whose id is in the
selected-id set as a tier-2 record with priority `50 + injection.priority`
and reason `LLM selected`. -/
def mapIdsToEntries (availableEntries : List Entry) (selectedIds : List String) :
    List RetrievedEntry :=
  availableEntries.filterMap fun entry =>
    if entry.id ∈ selectedIds then
      some ⟨entry, 2, 50 + entry.injection.priority, some "LLM selected"⟩
    else none

/-- `getLLMSelectedEntries` (source lines 203–310).  `hasProvider` models
`this.provider !== null`; `response` is the outcome of the one
`generateResponse` call, with `Except.error` standing for a rejected or
thrown call, which the `catch` of the source turns into an empty selection. -/
def getLLMSelectedEntries (config : EntryRetrievalConfig) (hasProvider : Bool)
    (availableEntries : List Entry) (response : Except Unit String) :
    List RetrievedEntry :=
  if !hasProvider || availableEntries.isEmpty then []
  else
    match response with
    | .error _ => []
    | .ok content =>
      let result := mapIdsToEntries availableEntries (selectIds content)
      if config.maxTier3Entries > 0 then result.take config.maxTier3Entries
      else result

/-! ## Merging, ranking and formatting -/

/-- The candidate pool handed to the reasoning selector (source lines
102–106): entries whose id is not already in tier 1 and whose injection
mode is not `never`. -/
def candidateEntries (entries : List Entry) : List Entry :=
  let tier1Ids := (getTier1Entries entries).map fun re => re.entry.id
  entries.filter fun e =>
    !(decide (e.id ∈ tier1Ids)) && !(decide (e.injection.mode = InjectionMode.never))

/-- The ordering used for the final ranking: `a` may precede `b` when
`a.priority ≥ b.priority` (the JS comparator `(a, b) => b.priority - a.priority`). -/
def priorityGE (a b : RetrievedEntry) : Prop :=
  b.priority ≤ a.priority

instance : DecidableRel priorityGE := fun a b => by
  unfold priorityGE; infer_instance

instance : IsTotal RetrievedEntry priorityGE :=
  ⟨fun a b => le_total b.priority a.priority⟩

instance : IsTrans RetrievedEntry priorityGE :=
  ⟨fun _ _ _ h1 h2 => le_trans h2 h1⟩

/-- The final ranking (source line 121):
`[...tier1, ...tier2, ...tier3].sort((a, b) => b.priority - a.priority)`.
ECMAScript mandates `Array.prototype.sort` to be stable, and a stable sort
is uniquely determined by its comparator, so the sort is modelled by the
stable `List.insertionSort`. -/
def sortByPriorityDesc (l : List RetrievedEntry) : List RetrievedEntry :=
  l.insertionSort priorityGE

/-- One rendered entry line of the context block
(`\n  - name: description`, plus, in the character section only, the
bracketed disposition suffix for a truthy `currentDisposition`). -/
def renderEntryLine (characterSection : Bool) (re : RetrievedEntry) : String :=
  "\n  - " ++ re.entry.name ++ ": " ++ re.entry.description ++
    (if characterSection then
      match re.entry.state with
      | some (.character _ (some d)) => if d = "" then "" else " [" ++ d ++ "]"
      | _ => ""
    else "")

/-- One labeled subsection of the context block, emitted only when
non-empty. -/
def renderSection (label : String) (characterSection : Bool)
    (res : List RetrievedEntry) : String :=
  if res.isEmpty then ""
  else
    "\n\n• " ++ label ++ ":" ++
      res.foldl (fun acc re => acc ++ renderEntryLine characterSection re) ""

/-- `buildContextBlock` (source lines 340–420): empty for an empty
combined set, otherwise the canonical-lore preamble followed by one
subsection per entry type in the fixed order
character, location, item, faction, concept, event. -/
def buildContextBlock (tier1 tier2 tier3 : List RetrievedEntry) : String :=
  let all := tier1 ++ tier2 ++ tier3
  if all.isEmpty then ""
  else
    let ofType := fun (t : EntryType) => all.filter fun re => re.entry.type = t
    "\n\n[LOREBOOK CONTEXT]\n(CANONICAL - All information below is established lore. Do not contradict these facts.)" ++
      renderSection "Characters" true (ofType EntryType.character) ++
      renderSection "Locations" false (ofType EntryType.location) ++
      renderSection "Items" false (ofType EntryType.item) ++
      renderSection "Factions" false (ofType EntryType.faction) ++
      renderSection "Lore" false (ofType EntryType.concept) ++
      renderSection "Events" false (ofType EntryType.event)

/-- `getRelevantEntries` (source lines 77–127).  The user input and recent
story entries only feed the prompt of the external call and are therefore
absorbed into the abstract `response`. -/
def getRelevantEntries (config : EntryRetrievalConfig) (hasProvider : Bool)
    (entries : List Entry) (response : Except Unit String) :
    EntryRetrievalResult :=
  if entries.isEmpty then ⟨[], [], [], [], ""⟩
  else
    let tier1 := getTier1Entries entries
    let remainingEntries := candidateEntries entries
    let tier2 :=
      if config.enableLLMSelection && !remainingEntries.isEmpty && hasProvider then
        getLLMSelectedEntries config hasProvider remainingEntries response
      else []
    let tier3 : List RetrievedEntry := []
    { tier1 := tier1
      tier2 := tier2
      tier3 := tier3
      all := sortByPriorityDesc (tier1 ++ tier2 ++ tier3)
      contextBlock := buildContextBlock tier1 tier2 tier3 }

/-! ## Supporting lemmas -/

/-- A rejected backend call degrades the selection to the empty list
(source lines 306–309). -/
theorem getLLMSelectedEntries_error (config : EntryRetrievalConfig)
    (hasProvider : Bool) (availableEntries : List Entry) :
    getLLMSelectedEntries config hasProvider availableEntries (.error ()) = [] := by
  unfold getLLMSelectedEntries
  split
  · rfl
  · rfl

/-- An always-inject entry is evaluated as included with priority 100:
the injection-mode check sets priority 100 and every state-based
condition can only take a `max` against it with a weight of at most 100. -/
theorem tier1Eval_always (e : Entry) (h : e.injection.mode = InjectionMode.always) :
    (tier1Eval e).1 = true ∧ (tier1Eval e).2.1 = 100 := by
  obtain ⟨id, ty, name, desc, ⟨mode, prio⟩, state⟩ := e
  simp only [Injection.mode] at h
  subst h
  rcases state with _ | (⟨p, d⟩ | l | i | f) <;>
    simp only [tier1Eval, if_pos rfl] <;>
    first
    | exact ⟨rfl, rfl⟩
    | · split
        · exact ⟨rfl, by norm_num⟩
        · exact ⟨rfl, rfl⟩

/-- Projection of the tier-1 field for a non-empty entry list. -/
theorem getRelevantEntries_tier1_eq (config : EntryRetrievalConfig)
    (hasProvider : Bool) (entries : List Entry) (response : Except Unit String)
    (hne : entries.isEmpty = false) :
    (getRelevantEntries config hasProvider entries response).tier1
      = getTier1Entries entries := by
  unfold getRelevantEntries
  rw [hne]
  rfl

/-- Projection of the tier-2 field for a non-empty entry list. -/
theorem getRelevantEntries_tier2_eq (config : EntryRetrievalConfig)
    (hasProvider : Bool) (entries : List Entry) (response : Except Unit String)
    (hne : entries.isEmpty = false) :
    (getRelevantEntries config hasProvider entries response).tier2
      = (if config.enableLLMSelection && !(candidateEntries entries).isEmpty
            && hasProvider then
          getLLMSelectedEntries config hasProvider (candidateEntries entries) response
        else []) := by
  unfold getRelevantEntries
  rw [hne]
  rfl

/-- The `all` field is always the priority sort of the three tiers. -/
theorem getRelevantEntries_all_eq (config : EntryRetrievalConfig)
    (hasProvider : Bool) (entries : List Entry) (response : Except Unit String) :
    (getRelevantEntries config hasProvider entries response).all
      = sortByPriorityDesc
          ((getRelevantEntries config hasProvider entries response).tier1 ++
           (getRelevantEntries config hasProvider entries response).tier2 ++
           (getRelevantEntries config hasProvider entries response).tier3) := by
  unfold getRelevantEntries
  split
  · rfl
  · rfl

/-- A candidate witnesses that the entry list is non-empty. -/
theorem entries_ne_nil_of_candidate {entries : List Entry} {e : Entry}
    (h : e ∈ candidateEntries entries) : entries.isEmpty = false := by
  unfold candidateEntries at h
  rcases entries with _ | ⟨a, rest⟩
  · cases h
  · rfl

/-- A selection result entry stems from the available pool. -/
theorem entry_mem_of_mem_mapIdsToEntries {avail : List Entry} {ids : List String}
    {re : RetrievedEntry} (h : re ∈ mapIdsToEntries avail ids) :
    re.entry ∈ avail ∧
    re = ⟨re.entry, 2, 50 + re.entry.injection.priority, some "LLM selected"⟩ := by
  unfold mapIdsToEntries at h
  obtain ⟨a, ha, hf⟩ := List.mem_filterMap.mp h
  by_cases hid : a.id ∈ ids
  · rw [if_pos hid] at hf
    obtain rfl := Option.some.inj hf
    exact ⟨ha, rfl⟩
  · rw [if_neg hid] at hf
    cases hf

/-- A pool entry whose id was selected is mapped into the selection. -/
theorem mem_mapIdsToEntries_of_mem {avail : List Entry} {ids : List String}
    {e : Entry} (ha : e ∈ avail) (hid : e.id ∈ ids) :
    (⟨e, 2, 50 + e.injection.priority, some "LLM selected"⟩ : RetrievedEntry)
      ∈ mapIdsToEntries avail ids := by
  unfold mapIdsToEntries
  exact List.mem_filterMap.mpr ⟨e, ha, by rw [if_pos hid]⟩

/-- The id of a candidate differs from every tier-1 id (the filter that builds
the candidate pool removes all tier-1 ids). -/
theorem candidate_id_not_in_tier1 {entries : List Entry} {e : Entry}
    (h : e ∈ candidateEntries entries) :
    ∀ re1 ∈ getTier1Entries entries, re1.entry.id ≠ e.id := by
  unfold candidateEntries at h
  obtain ⟨-, hpred⟩ := List.mem_filter.mp h
  rw [Bool.and_eq_true] at hpred
  obtain ⟨h1, -⟩ := hpred
  rw [Bool.not_eq_eq_eq_not, Bool.not_true, decide_eq_false_iff_not] at h1
  intro re1 hre1 hid
  exact h1 (hid ▸ List.mem_map_of_mem (fun re => re.entry.id) hre1)

/-- If the JSON stage yields no usable array, its id list is empty. -/
theorem jsonStageIds_eq_nil_of_parse_none {content : String}
    (h : (firstArraySeg content.data).bind parseJsonStringArray = none) :
    jsonStageIds content = [] := by
  unfold jsonStageIds
  cases hseg : firstArraySeg content.data with
  | none => rfl
  | some seg =>
    rw [hseg, Option.some_bind] at h
    show (match parseJsonStringArray seg with
      | some ids => List.map trimStr ids
      | none => []) = []
    rw [h]

/-- If the JSON stage parses an empty array, its id list is empty. -/
theorem jsonStageIds_eq_nil_of_parse_empty {content : String}
    (h : (firstArraySeg content.data).bind parseJsonStringArray = some []) :
    jsonStageIds content = [] := by
  unfold jsonStageIds
  cases hseg : firstArraySeg content.data with
  | none => rfl
  | some seg =>
    rw [hseg, Option.some_bind] at h
    show (match parseJsonStringArray seg with
      | some ids => List.map trimStr ids
      | none => []) = []
    rw [h]
    rfl

/-- A successful backend call yields the id-mapped selection, truncated
when a cap is configured (source lines 286–305). -/
theorem getLLMSelectedEntries_ok (config : EntryRetrievalConfig)
    (hasProvider : Bool) (avail : List Entry) (content : String)
    (hp : hasProvider = true) (hne : avail.isEmpty = false) :
    getLLMSelectedEntries config hasProvider avail (.ok content)
      = (if config.maxTier3Entries > 0 then
          (mapIdsToEntries avail (selectIds content)).take config.maxTier3Entries
        else mapIdsToEntries avail (selectIds content)) := by
  subst hp
  unfold getLLMSelectedEntries
  rw [hne]
  rfl

/-- Whenever the JSON stage produced no ids, the selected ids are exactly
those of the raw-text scan. -/
theorem selectIds_eq_scan_of_jsonStage_nil {content : String}
    (h : jsonStageIds content = []) :
    selectIds content = scanIds content.data := by
  unfold selectIds
  rw [h]
  rfl

/-! ## Stability of the final ranking -/

/-- `orderedInsert` moves an element only past strictly greater
priorities, so the per-priority-level sublists are untouched. -/
theorem filter_orderedInsert_priority (p : Int) (x : RetrievedEntry) :
    ∀ l : List RetrievedEntry,
      (l.orderedInsert priorityGE x).filter (fun re => decide (re.priority = p))
        = (x :: l).filter (fun re => decide (re.priority = p))
  | [] => rfl
  | y :: ys => by
    by_cases h : priorityGE x y
    · rw [List.orderedInsert, if_pos h]
    · rw [List.orderedInsert, if_neg h]
      have hxy : x.priority ≠ y.priority := by
        unfold priorityGE at h
        omega
      have ih := filter_orderedInsert_priority p x ys
      by_cases hx : x.priority = p <;> by_cases hy : y.priority = p <;>
        simp only [List.filter_cons] at * <;> simp_all

/-- The final ranking preserves the relative order of entries at each
priority level: the sort is stable. -/
theorem filter_sortByPriorityDesc (p : Int) :
    ∀ l : List RetrievedEntry,
      (sortByPriorityDesc l).filter (fun re => decide (re.priority = p))
        = l.filter (fun re => decide (re.priority = p))
  | [] => rfl
  | x :: xs => by
    unfold sortByPriorityDesc
    rw [List.insertionSort, filter_orderedInsert_priority,
      List.filter_cons, List.filter_cons]
    have ih := filter_sortByPriorityDesc p xs
    unfold sortByPriorityDesc at ih
    rw [ih]

/-! ## Claims -/

/-- The failing input for the `never`-exclusion claim: an entry whose
injection policy is `never` but whose character state marks it present. -/
def neverPresentChar : Entry :=
  ⟨"n1", .character, "Ghost", "spectral", ⟨.never, 0⟩, some (.character true none)⟩

/-- C1: the claim states that a `never` entry appears in neither tier nor
the context block regardless of state.  Evaluating the code on a `never`
character with `isPresent = true` shows the opposite: `getTier1Entries`
applies the state-based conditions without consulting
the `never` injection mode (that filter is applied only to the tier-2
candidate pool), so the entry lands in tier1 with priority 95 and is
rendered into the context block. -/
theorem never_entry_reaches_tier1_and_block :
    (getRelevantEntries DEFAULT_ENTRY_RETRIEVAL_CONFIG true [neverPresentChar]
        (.error ())).tier1
      = [⟨neverPresentChar, 1, 95, some "character present"⟩] ∧
    (getRelevantEntries DEFAULT_ENTRY_RETRIEVAL_CONFIG true [neverPresentChar]
        (.error ())).contextBlock
      = "\n\n[LOREBOOK CONTEXT]\n(CANONICAL - All information below is established lore. Do not contradict these facts.)\n\n• Characters:\n  - Ghost: spectral" := by
  constructor <;> decide

/-- C2: if the backend call rejects, `getRelevantEntries` still produces a
result (totality of the embedding mirrors the `try`/`catch` of the source: the
failure never propagates) and its tier2 is the empty list, for every
configuration, provider state and entry list. -/
theorem backend_failure_resolves_with_empty_tier2
    (config : EntryRetrievalConfig) (hasProvider : Bool) (entries : List Entry) :
    (getRelevantEntries config hasProvider entries (.error ())).tier2 = [] := by
  unfold getRelevantEntries
  split
  · rfl
  · simp only [getLLMSelectedEntries_error]
    split <;> rfl

/-- C3: every entry with injection policy `always` appears in tier1 with
priority exactly 100, for every configuration, provider state and backend
response. -/
theorem always_entry_in_tier1_priority_100
    (config : EntryRetrievalConfig) (hasProvider : Bool) (entries : List Entry)
    (response : Except Unit String) (e : Entry)
    (he : e ∈ entries) (hmode : e.injection.mode = InjectionMode.always) :
    ∃ re ∈ (getRelevantEntries config hasProvider entries response).tier1,
      re.entry = e ∧ re.priority = 100 := by
  have hne : entries.isEmpty = false := by
    cases entries
    · cases he
    · rfl
  obtain ⟨h1, h2⟩ := tier1Eval_always e hmode
  unfold getRelevantEntries
  rw [hne]
  simp only [Bool.false_eq_true, if_false]
  refine ⟨⟨e, 1, (tier1Eval e).2.1, some (tier1Eval e).2.2⟩, ?_, rfl, h2⟩
  unfold getTier1Entries
  refine List.mem_filterMap.mpr ⟨e, he, ?_⟩
  simp only [h1, if_true]

/-- A concrete always-inject entry for the C3 witness. -/
def plainAlwaysEntry : Entry :=
  ⟨"a1", .concept, "Axiom", "canon", ⟨.always, 0⟩, none⟩

/-- Witness for C3 at a concrete input (no provider, failed backend). -/
theorem always_entry_in_tier1_priority_100_witness :
    ∃ re ∈ (getRelevantEntries DEFAULT_ENTRY_RETRIEVAL_CONFIG false
        [plainAlwaysEntry] (.error ())).tier1,
      re.entry = plainAlwaysEntry ∧ re.priority = 100 :=
  always_entry_in_tier1_priority_100 _ _ _ _ plainAlwaysEntry (by decide) (by decide)

/-- The concrete input refuting C4 as stated: an `always` entry that is
also a present character. -/
def alwaysPresentChar : Entry :=
  ⟨"c1", .character, "Hero", "bold", ⟨.always, 0⟩, some (.character true none)⟩

/-- C4 counterexample: the claim says an entry with injection policy
`always` (weight 100) that is also a present character (weight 95) keeps
the reason of the condition that produced the maximum, i.e.
`always inject`.  The code instead reports `character present`: each
matching state condition overwrites `reason` unconditionally, even when
its weight loses the `max`. -/
theorem max_weight_reason_counterexample :
    getTier1Entries [alwaysPresentChar]
      = [⟨alwaysPresentChar, 1, 100, some "character present"⟩] ∧
    (some "character present" : Option String) ≠ some "always inject" := by
  constructor <;> decide

/-- The conditions of the tier-1 rule table that match an entry, in
evaluation order (injection-mode check first, then the per-type state
check), each with its priority weight and reason. -/
def tier1MatchedConditions (e : Entry) : List (Int × String) :=
  (if e.injection.mode = InjectionMode.always then [((100 : Int), "always inject")]
   else []) ++
  (match e.state with
   | some (.character isPresent _) =>
     if isPresent then [((95 : Int), "character present")] else []
   | some (.location isCurrentLocation) =>
     if isCurrentLocation then [((100 : Int), "current location")] else []
   | some (.item inInventory) =>
     if inInventory then [((80 : Int), "in inventory")] else []
   | some (.faction status) =>
     if status = FactionStatus.allied ∨ status = FactionStatus.hostile then
       [((70 : Int), "faction " ++ status.toStr)]
     else []
   | none => [])

/-- C4 amended: an entry is included in tier 1 exactly when some condition
matches; its priority is the maximum of the weights of the matching conditions;
its match reason is the reason of the LAST matching condition in
evaluation order — the reason of a state condition overwrites `always inject`
even when its weight is below the maximum. -/
theorem tier1Eval_max_priority_last_reason (e : Entry) :
    (tier1Eval e).1 = !(tier1MatchedConditions e).isEmpty ∧
    (tier1Eval e).2.1 = (tier1MatchedConditions e).foldl (fun m c => max m c.1) 0 ∧
    (tier1Eval e).2.2 = (((tier1MatchedConditions e).map fun c => c.2).getLastD "") := by
  obtain ⟨id, ty, name, desc, ⟨mode, prio⟩, state⟩ := e
  cases mode <;>
    rcases state with _ | (⟨p, d⟩ | l | i | f) <;>
      simp only [tier1Eval, tier1MatchedConditions] <;>
      split_ifs <;>
      refine ⟨by simp, by simp, by simp⟩

/-- The configuration refuting the threshold gate: selection below the
threshold (`llmThreshold = 5`, one candidate) with `alwaysUseLLM` off. -/
def belowThresholdConfig : EntryRetrievalConfig :=
  { llmThreshold := 5
    maxTier3Entries := 0
    enableLLMSelection := true
    recentEntriesCount := 5
    tier3Model := "x-ai/grok-4.1-fast"
    alwaysUseLLM := false }

/-- The single candidate entry for the threshold-gate evaluation. -/
def loneAutoConcept : Entry :=
  ⟨"x1", .concept, "Lore", "old tales", ⟨.auto, 0⟩, none⟩

/-- C5: with `alwaysUseLLM = false` and a candidate count (1) strictly
below `llmThreshold` (5), the claim says no backend call is made and
tier2 is empty.  Evaluating the code shows the backend response is
consumed and its selection returned in tier2: the retrieval path never
reads `llmThreshold` or `alwaysUseLLM`. -/
theorem threshold_gate_never_consulted :
    (getRelevantEntries belowThresholdConfig true [loneAutoConcept]
        (.ok "[\"x1\"]")).tier2
      = [⟨loneAutoConcept, 2, 50, some "LLM selected"⟩] := by
  decide

/-- C6: with `maxSelectedEntries = N > 0` (`maxTier3Entries` in the code)
and a backend selection mapping to more than `N` candidates, tier2 is the
`N`-element prefix of the untruncated selection — candidate encounter
order, not priority order — and `all` is still the priority sort of the
already-truncated tiers, so truncation happens before the final global
sort. -/
theorem truncation_caps_before_sort
    (config : EntryRetrievalConfig) (entries : List Entry) (content : String)
    (N : Nat) (hN : config.maxTier3Entries = N) (hpos : 0 < N)
    (hen : config.enableLLMSelection = true)
    (hM : N < (mapIdsToEntries (candidateEntries entries) (selectIds content)).length) :
    (getRelevantEntries config true entries (.ok content)).tier2
        = (mapIdsToEntries (candidateEntries entries) (selectIds content)).take N ∧
    (getRelevantEntries config true entries (.ok content)).tier2.length = N ∧
    (getRelevantEntries config true entries (.ok content)).all
        = sortByPriorityDesc
            ((getRelevantEntries config true entries (.ok content)).tier1 ++
             (getRelevantEntries config true entries (.ok content)).tier2 ++
             (getRelevantEntries config true entries (.ok content)).tier3) := by
  have hcne : (candidateEntries entries).isEmpty = false := by
    rcases hc : candidateEntries entries with _ | ⟨a, rest⟩
    · rw [hc] at hM
      simp [mapIdsToEntries] at hM
    · rfl
  have hene : entries.isEmpty = false := by
    rcases entries with _ | ⟨a, rest⟩
    · rw [show candidateEntries [] = [] from rfl] at hcne
      cases hcne
    · rfl
  have h2 : (getRelevantEntries config true entries (.ok content)).tier2
      = (mapIdsToEntries (candidateEntries entries) (selectIds content)).take N := by
    rw [getRelevantEntries_tier2_eq config true entries (.ok content) hene,
      hen, hcne,
      getLLMSelectedEntries_ok config true (candidateEntries entries) content
        rfl hcne, hN]
    simp [hpos]
  refine ⟨h2, ?_, getRelevantEntries_all_eq config true entries (.ok content)⟩
  rw [h2, List.length_take]
  omega

/-- A configuration with a tier-2 cap of one entry, for the C6 witness. -/
def capOneConfig : EntryRetrievalConfig :=
  { DEFAULT_ENTRY_RETRIEVAL_CONFIG with maxTier3Entries := 1 }

/-- First of two plain candidates used by concrete witnesses. -/
def plainEntryA : Entry := ⟨"a", .concept, "Alpha", "first", ⟨.auto, 0⟩, none⟩

/-- Second of two plain candidates used by concrete witnesses. -/
def plainEntryB : Entry := ⟨"b", .concept, "Beta", "second", ⟨.auto, 0⟩, none⟩

/-- Witness for C6: two candidates, both selected, cap of one. -/
theorem truncation_caps_before_sort_witness :
    capOneConfig.maxTier3Entries = 1 ∧ 0 < 1 ∧
    capOneConfig.enableLLMSelection = true ∧
    1 < (mapIdsToEntries (candidateEntries [plainEntryA, plainEntryB])
        (selectIds "[\"a\", \"b\"]")).length ∧
    ((getRelevantEntries capOneConfig true [plainEntryA, plainEntryB]
          (.ok "[\"a\", \"b\"]")).tier2
        = (mapIdsToEntries (candidateEntries [plainEntryA, plainEntryB])
            (selectIds "[\"a\", \"b\"]")).take 1 ∧
      (getRelevantEntries capOneConfig true [plainEntryA, plainEntryB]
          (.ok "[\"a\", \"b\"]")).tier2.length = 1 ∧
      (getRelevantEntries capOneConfig true [plainEntryA, plainEntryB]
          (.ok "[\"a\", \"b\"]")).all
        = sortByPriorityDesc
            ((getRelevantEntries capOneConfig true [plainEntryA, plainEntryB]
                (.ok "[\"a\", \"b\"]")).tier1 ++
             (getRelevantEntries capOneConfig true [plainEntryA, plainEntryB]
                (.ok "[\"a\", \"b\"]")).tier2 ++
             (getRelevantEntries capOneConfig true [plainEntryA, plainEntryB]
                (.ok "[\"a\", \"b\"]")).tier3)) :=
  ⟨rfl, by decide, rfl, by decide,
    truncation_caps_before_sort capOneConfig [plainEntryA, plainEntryB]
      "[\"a\", \"b\"]" 1 rfl (by decide) rfl (by decide)⟩

/-- C7: when the response text yields no usable JSON array, the ids are
recovered by the raw-text scan: the selected-id list equals the scan
result, and every candidate whose id the scan finds appears in tier2
(with the default unlimited cap). -/
theorem fallback_scan_recovers_ids
    (config : EntryRetrievalConfig) (entries : List Entry) (content : String)
    (e : Entry)
    (hjson : (firstArraySeg content.data).bind parseJsonStringArray = none)
    (hcand : e ∈ candidateEntries entries)
    (hscan : e.id ∈ scanIds content.data)
    (hen : config.enableLLMSelection = true)
    (hmax : config.maxTier3Entries = 0) :
    selectIds content = scanIds content.data ∧
    (⟨e, 2, 50 + e.injection.priority, some "LLM selected"⟩ : RetrievedEntry)
      ∈ (getRelevantEntries config true entries (.ok content)).tier2 := by
  have hsel : selectIds content = scanIds content.data :=
    selectIds_eq_scan_of_jsonStage_nil (jsonStageIds_eq_nil_of_parse_none hjson)
  have hene := entries_ne_nil_of_candidate hcand
  have hcne : (candidateEntries entries).isEmpty = false := by
    rcases hc : candidateEntries entries with _ | ⟨a, rest⟩
    · rw [hc] at hcand
      cases hcand
    · rfl
  refine ⟨hsel, ?_⟩
  rw [getRelevantEntries_tier2_eq config true entries (.ok content) hene,
    hen, hcne,
    getLLMSelectedEntries_ok config true (candidateEntries entries) content
      rfl hcne, hmax]
  simp only [gt_iff_lt, Nat.lt_irrefl, if_false]
  exact mem_mapIdsToEntries_of_mem hcand (hsel ▸ hscan)

/-- A non-JSON backend response that still mentions two candidate id
tags, for the C7 witness. -/
def proseResponse : String :=
  "I would include ID:a and also ID:b for this scene."

/-- Witness for C7: prose-only response, ids recovered by the scan. -/
theorem fallback_scan_recovers_ids_witness :
    (firstArraySeg proseResponse.data).bind parseJsonStringArray = none ∧
    plainEntryA ∈ candidateEntries [plainEntryA, plainEntryB] ∧
    plainEntryA.id ∈ scanIds proseResponse.data ∧
    DEFAULT_ENTRY_RETRIEVAL_CONFIG.enableLLMSelection = true ∧
    DEFAULT_ENTRY_RETRIEVAL_CONFIG.maxTier3Entries = 0 ∧
    (selectIds proseResponse = scanIds proseResponse.data ∧
      (⟨plainEntryA, 2, 50 + plainEntryA.injection.priority,
          some "LLM selected"⟩ : RetrievedEntry)
        ∈ (getRelevantEntries DEFAULT_ENTRY_RETRIEVAL_CONFIG true
            [plainEntryA, plainEntryB] (.ok proseResponse)).tier2) :=
  ⟨by decide, by decide, by decide, rfl, rfl,
    fallback_scan_recovers_ids DEFAULT_ENTRY_RETRIEVAL_CONFIG
      [plainEntryA, plainEntryB] proseResponse plainEntryA
      (by decide) (by decide) (by decide) rfl rfl⟩

/-- C8: every tier-2 entry comes from the candidate pool (not already in
tier 1, not marked `never`), ids outside that pool having been silently
discarded; consequently no tier-1 entry shares an id with a tier-2 entry —
the two tiers are disjoint, for every input and backend response. -/
theorem tier2_from_candidates_and_disjoint
    (config : EntryRetrievalConfig) (hasProvider : Bool) (entries : List Entry)
    (response : Except Unit String) :
    ∀ re2 ∈ (getRelevantEntries config hasProvider entries response).tier2,
      re2.entry ∈ candidateEntries entries ∧
      ∀ re1 ∈ (getRelevantEntries config hasProvider entries response).tier1,
        re1.entry.id ≠ re2.entry.id := by
  intro re2 h2
  have hene : entries.isEmpty = false := by
    rcases entries with _ | ⟨a, rest⟩
    · rw [show getRelevantEntries config hasProvider [] response
          = ⟨[], [], [], [], ""⟩ from rfl] at h2
      cases h2
    · rfl
  rw [getRelevantEntries_tier2_eq config hasProvider entries response hene] at h2
  have hmem : re2 ∈ mapIdsToEntries (candidateEntries entries)
      (match response with
       | .ok content => selectIds content
       | .error _ => []) := by
    split at h2
    · unfold getLLMSelectedEntries at h2
      split at h2
      · cases h2
      · split at h2
        · cases h2
        · rename_i content
          split at h2
          · exact List.mem_of_mem_take h2
          · exact h2
    · cases h2
  have hc := (entry_mem_of_mem_mapIdsToEntries hmem).1
  refine ⟨hc, ?_⟩
  rw [getRelevantEntries_tier1_eq config hasProvider entries response hene]
  exact candidate_id_not_in_tier1 hc

/-- An always-inject character used to populate tier 1 in witnesses. -/
def alwaysHero : Entry :=
  ⟨"h", .character, "Hero", "bold", ⟨.always, 0⟩, some (.character true none)⟩

/-- Witness for C8: a run with one tier-1 entry and one selected tier-2
entry; the theorem applies to the concrete tier-2 member. -/
theorem tier2_from_candidates_and_disjoint_witness :
    (⟨plainEntryB, 2, 50, some "LLM selected"⟩ : RetrievedEntry)
      ∈ (getRelevantEntries DEFAULT_ENTRY_RETRIEVAL_CONFIG true
          [alwaysHero, plainEntryB] (.ok "[\"b\", \"h\", \"zzz\"]")).tier2 ∧
    ((⟨plainEntryB, 2, 50, some "LLM selected"⟩ : RetrievedEntry).entry
        ∈ candidateEntries [alwaysHero, plainEntryB] ∧
      ∀ re1 ∈ (getRelevantEntries DEFAULT_ENTRY_RETRIEVAL_CONFIG true
          [alwaysHero, plainEntryB] (.ok "[\"b\", \"h\", \"zzz\"]")).tier1,
        re1.entry.id
          ≠ (⟨plainEntryB, 2, 50, some "LLM selected"⟩ : RetrievedEntry).entry.id) :=
  ⟨by decide,
    tier2_from_candidates_and_disjoint DEFAULT_ENTRY_RETRIEVAL_CONFIG true
      [alwaysHero, plainEntryB] (.ok "[\"b\", \"h\", \"zzz\"]")
      ⟨plainEntryB, 2, 50, some "LLM selected"⟩ (by decide)⟩

/-- C9: `all` is the concatenation tier1 ++ tier2 ++ tier3 stably sorted
in descending priority: it is a permutation of the concatenation, it is
sorted by `≥` on priority, and within every priority level the relative
order of the concatenation (tier1 before tier2 before tier3, insertion
order within a tier) is preserved exactly. -/
theorem all_eq_stable_descending_sort
    (config : EntryRetrievalConfig) (hasProvider : Bool) (entries : List Entry)
    (response : Except Unit String) :
    (getRelevantEntries config hasProvider entries response).all.Perm
      ((getRelevantEntries config hasProvider entries response).tier1 ++
       (getRelevantEntries config hasProvider entries response).tier2 ++
       (getRelevantEntries config hasProvider entries response).tier3) ∧
    (getRelevantEntries config hasProvider entries response).all.Sorted
      priorityGE ∧
    ∀ p : Int,
      (getRelevantEntries config hasProvider entries response).all.filter
          (fun re => decide (re.priority = p))
        = ((getRelevantEntries config hasProvider entries response).tier1 ++
           (getRelevantEntries config hasProvider entries response).tier2 ++
           (getRelevantEntries config hasProvider entries response).tier3).filter
            (fun re => decide (re.priority = p)) := by
  rw [getRelevantEntries_all_eq config hasProvider entries response]
  exact ⟨List.perm_insertionSort priorityGE _,
    List.sorted_insertionSort priorityGE _,
    fun p => filter_sortByPriorityDesc p _⟩

/-- C10: a response whose first bracketed literal parses to the empty
array — the documented "no entries are relevant" answer of the prompt — does
not stop the selection: the empty selected-id list triggers the raw-text
scan of the whole response, so id tags in surrounding prose still produce
a non-empty tier2. -/
theorem empty_array_answer_overridden_by_scan
    (config : EntryRetrievalConfig) (entries : List Entry) (content : String)
    (e : Entry)
    (hjson : (firstArraySeg content.data).bind parseJsonStringArray = some [])
    (hcand : e ∈ candidateEntries entries)
    (hscan : e.id ∈ scanIds content.data)
    (hen : config.enableLLMSelection = true)
    (hmax : config.maxTier3Entries = 0) :
    selectIds content = scanIds content.data ∧
    (⟨e, 2, 50 + e.injection.priority, some "LLM selected"⟩ : RetrievedEntry)
      ∈ (getRelevantEntries config true entries (.ok content)).tier2 ∧
    (getRelevantEntries config true entries (.ok content)).tier2 ≠ [] := by
  have hsel : selectIds content = scanIds content.data :=
    selectIds_eq_scan_of_jsonStage_nil (jsonStageIds_eq_nil_of_parse_empty hjson)
  have hene := entries_ne_nil_of_candidate hcand
  have hcne : (candidateEntries entries).isEmpty = false := by
    rcases hc : candidateEntries entries with _ | ⟨a, rest⟩
    · rw [hc] at hcand
      cases hcand
    · rfl
  have hmem : (⟨e, 2, 50 + e.injection.priority, some "LLM selected"⟩ : RetrievedEntry)
      ∈ (getRelevantEntries config true entries (.ok content)).tier2 := by
    rw [getRelevantEntries_tier2_eq config true entries (.ok content) hene,
      hen, hcne,
      getLLMSelectedEntries_ok config true (candidateEntries entries) content
        rfl hcne, hmax]
    simp only [gt_iff_lt, Nat.lt_irrefl, if_false]
    exact mem_mapIdsToEntries_of_mem hcand (hsel ▸ hscan)
  exact ⟨hsel, hmem, fun hnil => by rw [hnil] at hmem; cases hmem⟩

/-- The `[]`-plus-prose response of the C10 witness. -/
def emptyArrayProse : String :=
  "[] — although strictly speaking ID:b relates to the scene."

/-- Witness for C10: a leading empty JSON array followed by prose naming
a candidate id tag. -/
theorem empty_array_answer_overridden_by_scan_witness :
    (firstArraySeg emptyArrayProse.data).bind parseJsonStringArray = some [] ∧
    plainEntryB ∈ candidateEntries [plainEntryA, plainEntryB] ∧
    plainEntryB.id ∈ scanIds emptyArrayProse.data ∧
    DEFAULT_ENTRY_RETRIEVAL_CONFIG.enableLLMSelection = true ∧
    DEFAULT_ENTRY_RETRIEVAL_CONFIG.maxTier3Entries = 0 ∧
    (selectIds emptyArrayProse = scanIds emptyArrayProse.data ∧
      (⟨plainEntryB, 2, 50 + plainEntryB.injection.priority,
          some "LLM selected"⟩ : RetrievedEntry)
        ∈ (getRelevantEntries DEFAULT_ENTRY_RETRIEVAL_CONFIG true
            [plainEntryA, plainEntryB] (.ok emptyArrayProse)).tier2 ∧
      (getRelevantEntries DEFAULT_ENTRY_RETRIEVAL_CONFIG true
          [plainEntryA, plainEntryB] (.ok emptyArrayProse)).tier2 ≠ []) :=
  ⟨by decide, by decide, by decide, rfl, rfl,
    empty_array_answer_overridden_by_scan DEFAULT_ENTRY_RETRIEVAL_CONFIG
      [plainEntryA, plainEntryB] emptyArrayProse plainEntryB
      (by decide) (by decide) (by decide) rfl rfl⟩

end Aventura
